import Mathlib

/-!
Shallow embedding of `sggmm` (Supergiant Games Mod Manager), `sggmm/cli.py`,
together with theorems settling the specification claims.

The embedding models:
* `REGEX_SUBSTITUTION` / `re.sub(REGEX_SUBSTITUTION, "", text)` (cli.py lines
  26-35) as an executable left-to-right scanner `clean` over the three
  alternatives of the pattern, with Python `re` semantics (MULTILINE anchors,
  lazy quantifiers, leftmost-first alternation);
* `GameEnum` and its `script_path` property (lines 38-58);
* `load_mods` (lines 199-230) as a function returning either the list of log
  events it emits or the Python exception it raises;
* `read_modfiles` (lines 177-196), including its unreachable tail;
* the filesystem-touching operations `backup_files` (121-140),
  `restore_files` (143-174) and `uninstall_mods` (83-118) over an explicit
  filesystem value (paths are component lists, no symlinks, so `resolve` is
  the identity and two paths denote the same file iff they are equal).
-/

namespace Sggmm

/-- Python `\s` on the ASCII range: space, tab, newline, carriage return,
vertical tab, form feed.  (The modfile texts involved are ASCII.) -/
def pyWS (c : Char) : Bool :=
  c = ' ' || c = '\t' || c = '\n' || c = '\r' || c = '\x0b' || c = '\x0c'

/-- After the literal `::` of the single-line-comment alternative
`\s?::.*?$\s?`: the lazy `.*?` runs to the first newline or to the end of
text (`.` does not match a newline, and in MULTILINE mode `$` matches there),
after which the greedy `\s?` consumes the newline when present.
Returns the number of characters consumed. -/
def afterColons : List Char → Nat
  | [] => 0
  | '\n' :: _ => 1
  | _ :: rest => 1 + afterColons rest

/-- First alternative of `REGEX_SUBSTITUTION`: `(\s?::.*?$\s?)`.
Returns the length of the match at the head of the input, if any.
The greedy leading `\s?` first tries to consume one whitespace character
(whitespace is never `:`, so the two shapes are disjoint). -/
def matchA : List Char → Option Nat
  | ':' :: ':' :: rest => some (2 + afterColons rest)
  | c :: ':' :: ':' :: rest => if pyWS c then some (3 + afterColons rest) else none
  | _ => none

/-- Index of the first occurrence of the closing marker `:-`, if any:
the lazy `(?:.|\s)*?` stops at the earliest closing marker. -/
def findClose : List Char → Option Nat
  | ':' :: '-' :: _ => some 0
  | _ :: rest => (findClose rest).map (· + 1)
  | [] => none

/-- Second alternative of `REGEX_SUBSTITUTION`: `(-:(?:.|\s)*?:-\s?)`.
Requires the literal opener `-:`, then the earliest closing `:-`; the final
greedy `\s?` consumes one further whitespace character when present.
With no closing marker in the rest of the text there is no match at all. -/
def matchB : List Char → Option Nat
  | '-' :: ':' :: rest =>
    match findClose rest with
    | some k =>
      match rest.drop (k + 2) with
      | c :: _ => if pyWS c then some (2 + k + 2 + 1) else some (2 + k + 2)
      | [] => some (2 + k + 2)
    | none => none
  | _ => none

/-- Length of the maximal whitespace run at the head of the input. -/
def wsRun : List Char → Nat
  | [] => 0
  | c :: rest => if pyWS c then 1 + wsRun rest else 0

/-- Third alternative of `REGEX_SUBSTITUTION`: `(^\s+)` in MULTILINE mode.
`atStart` records whether the current position is the start of the text or
immediately follows a newline; the greedy `\s+` consumes the maximal
whitespace run (which may itself span newlines). -/
def matchC (s : List Char) (atStart : Bool) : Option Nat :=
  if atStart then
    match s with
    | c :: _ => if pyWS c then some (wsRun s) else none
    | [] => none
  else none

/-- One attempt of the whole alternation at the current position:
alternatives are tried left to right, the first that matches wins. -/
def tryMatch (s : List Char) (atStart : Bool) : Option Nat :=
  (matchA s).orElse fun _ => (matchB s).orElse fun _ => matchC s atStart

/-- Does a consumed chunk end with a newline?  Determines whether the
position after the chunk is a line start for the `^` anchor. -/
def lastIsNL (l : List Char) : Bool :=
  l.getLast? == some '\n'

/-- The scan loop of `re.sub(REGEX_SUBSTITUTION, "", text)`: at each
position try the pattern; on a match emit nothing and continue after the
match, otherwise copy one character.  Every match consumes at least one
character, so fuel equal to the input length suffices. -/
def cleanGo : Nat → List Char → Bool → List Char
  | 0, _, _ => []
  | _ + 1, [], _ => []
  | fuel + 1, c :: rest, atStart =>
    match tryMatch (c :: rest) atStart with
    | some n =>
      cleanGo fuel ((c :: rest).drop n) (lastIsNL ((c :: rest).take n))
    | none => c :: cleanGo fuel rest (c == '\n')

/-- `re.sub(REGEX_SUBSTITUTION, "", text)` (cli.py line 193): remove every
match of the comment/whitespace pattern from the text. -/
def clean (s : String) : String :=
  ⟨cleanGo s.data.length s.data true⟩

example : clean "--::-:a:-" = "-:a:-" := by decide
example : clean "-:a:-" = "" := by decide
example : clean "-: open\nimport foo.txt" = "-: open\nimport foo.txt" := by decide
example : clean "a: :: comment\n:b" = "a::b" := by decide
example : clean "  \n\nload 1 :: trailing\n-: multi\nline :- import x\n"
    = "load 1import x\n" := by decide
example : clean " ::x\ny" = "y" := by decide

/-- The Python exceptions that the modelled code can raise. -/
inductive PyError
  | indexError
  | valueError
  | fileNotFoundError
  | fileExistsError
  | sameFileError
  | isADirectoryError
  | notADirectoryError
deriving DecidableEq, Repr

/-- The log events `load_mods` emits (`LOGGER.debug` / `LOGGER.warning`
calls of cli.py lines 209-230). -/
inductive LogEvent
  | debugLoad (priority : Int)
  | debugImport (sub : String)
  | debugTo (sub : String)
  | debugTop (priority : List String)
  | warnUnsupported (command : String)
deriving DecidableEq, Repr

/-- Python `str.splitlines()`: lines broken at `\n`, `\r\n` or `\r`, with no
trailing empty line for a final terminator.  (The further unicode line
separators Python also honours do not occur in the modelled texts.) -/
def splitlinesAux : List Char → List Char → List String
  | [], [] => []
  | [], acc => [⟨acc.reverse⟩]
  | '\r' :: '\n' :: rest, acc => ⟨acc.reverse⟩ :: splitlinesAux rest []
  | '\n' :: rest, acc => ⟨acc.reverse⟩ :: splitlinesAux rest []
  | '\r' :: rest, acc => ⟨acc.reverse⟩ :: splitlinesAux rest []
  | c :: rest, acc => splitlinesAux rest (c :: acc)

/-- Python `str.splitlines()` on a string. -/
def pySplitlines (s : String) : List String :=
  splitlinesAux s.data []

example : pySplitlines "a\n\nb\n" = ["a", "", "b"] := by decide
example : pySplitlines "" = [] := by decide

/-- Helper for `pyWords`: accumulate the current word (reversed), breaking
on whitespace and discarding empty pieces. -/
def wordsAux : List Char → List Char → List String
  | [], [] => []
  | [], acc => [⟨acc.reverse⟩]
  | c :: rest, acc =>
    if pyWS c then
      match acc with
      | [] => wordsAux rest []
      | _ => ⟨acc.reverse⟩ :: wordsAux rest []
    else wordsAux rest (c :: acc)

/-- Python `str.split()` with no separator: split on runs of whitespace,
discarding empty pieces. -/
def pyWords (s : String) : List String :=
  wordsAux s.data []

example : pyWords "  load   1 " = ["load", "1"] := by decide
example : pyWords "" = [] := by decide

/-- Python `str.lower()` on the ASCII range. -/
def pyLower (s : String) : String :=
  ⟨s.data.map Char.toLower⟩

/-- Python `int(float(s))` on the strings `str.split()` can produce: an
optional sign, digits, an optional decimal point and fraction — at least one
digit in all — truncated toward zero.  Any other string raises `ValueError`
(exponent forms and `inf`/`nan`, which the modelled texts never contain, are
not modelled). -/
def pyFloatTrunc (s : String) : Option Int :=
  let signed : Bool × List Char :=
    match s.data with
    | '-' :: r => (true, r)
    | '+' :: r => (false, r)
    | r => (false, r)
  let neg := signed.1
  let ipPair := signed.2.span fun c => c.isDigit
  let ip := ipPair.1
  let fpPair : List Char × List Char :=
    match ipPair.2 with
    | '.' :: r => r.span fun c => c.isDigit
    | r => ([], r)
  let fp := fpPair.1
  if fpPair.2 = [] ∧ ip ++ fp ≠ [] then
    let v : Int := ip.foldl (fun a c => a * 10 + ((c.toNat : Int) - 48)) 0
    some (if neg then -v else v)
  else none

example : pyFloatTrunc "1" = some 1 := rfl
example : pyFloatTrunc "-2.7" = some (-2) := rfl
example : pyFloatTrunc ".5" = some 0 := rfl
example : pyFloatTrunc "x" = none := rfl

/-- One iteration of the `load_mods` loop (cli.py lines 205-230): the line is
split into `command, sub, *priority`; with fewer than two tokens the
unpacking itself raises `ValueError`; the `load` arm evaluates
`int(float(priority[0]))` as an argument of `LOGGER.debug`, so an empty
`priority` raises `IndexError` there. -/
def processLine (line : String) : Except PyError (List LogEvent) :=
  match pyWords line with
  | command :: sub :: priority =>
    match pyLower command with
    | "load" =>
      match priority with
      | [] => .error .indexError
      | p :: _ =>
        match pyFloatTrunc p with
        | some n => .ok [.debugLoad n]
        | none => .error .valueError
    | "import" => .ok [.debugImport sub]
    | "to" => .ok [.debugTo sub]
    | "top" => .ok [.debugTop priority]
    | "xml" => .ok []
    | "map" => .ok []
    | "sjson" => .ok []
    | "include" => .ok []
    | _ => .ok [.warnUnsupported command]
  | _ => .error .valueError

/-- `load_mods` (cli.py lines 199-230): process the cleaned modfile text
line by line, collecting log events; the first raised exception aborts the
whole loop and propagates (nothing in the code catches it). -/
def load_mods (modfile_commands : String) : Except PyError (List LogEvent) :=
  (pySplitlines modfile_commands).foldlM
    (fun acc line => do
      let evs ← processLine line
      pure (acc ++ evs))
    []

instance : DecidableEq (Except PyError (List LogEvent)) := fun a b =>
  match a, b with
  | .ok x, .ok y => decidable_of_iff (x = y) (by simp)
  | .error x, .error y => decidable_of_iff (x = y) (by simp)
  | .ok _, .error _ => isFalse (by simp)
  | .error _, .ok _ => isFalse (by simp)

example : load_mods "load 1" = .error .indexError := by decide
example : load_mods "LOAD 1" = .error .indexError := by decide
example : load_mods "load priority 1" = .ok [.debugLoad 1] := by decide
example : load_mods "import" = .error .valueError := by decide
example : load_mods "to Scripts/Bar.lua\nimport baz.txt"
    = .ok [.debugTo "Scripts/Bar.lua", .debugImport "baz.txt"] := by decide
example : load_mods "frob x" = .ok [.warnUnsupported "frob"] := by decide

/-- `GameEnum` (cli.py lines 38-58). -/
inductive GameEnum
  | HADES
  | PYRE
  | TRANSISTOR
  | BASTION
deriving DecidableEq, Repr

/-- The `StrEnum` value of each game. -/
def GameEnum.value : GameEnum → String
  | .HADES => "Hades"
  | .PYRE => "Pyre"
  | .TRANSISTOR => "Transistor"
  | .BASTION => "Bastion"

/-- `GameEnum.script_path` (cli.py lines 46-58): the per-game default
script path list, copied verbatim from the source dictionary. -/
def GameEnum.script_path : GameEnum → List String
  | .HADES => ["Scritps/RoomManager.lua"]
  | .PYRE => ["Scripts/Campaign.lua", "Scripts/MPScripts.lua"]
  | .TRANSISTOR => ["Scripts/AllCampaignScripts.txt"]
  | .BASTION => [""]

/-- First `/`-separated component of a path string. -/
def firstPathComponent (s : String) : String :=
  ⟨s.data.takeWhile (· ≠ '/')⟩

/-- A filesystem path, as its list of components. -/
abbrev FPath := List String

/-- A filesystem node: a directory or a regular file with its content. -/
inductive Node
  | dir
  | file (content : String)
deriving DecidableEq, Repr

/-- A filesystem: the set of existing paths with their nodes, as an
association list.  There are no symlinks, so `Path.resolve()` is the
identity and two paths denote the same file exactly when they are equal. -/
abbrev FS := List (FPath × Node)

/-- The node at a path, if the path exists. -/
def lookupNode (fs : FS) (p : FPath) : Option Node :=
  (fs.find? fun e => e.1 == p).map (·.2)

/-- `Path.exists()`. -/
def pathExists (fs : FS) (p : FPath) : Bool :=
  (lookupNode fs p).isSome

/-- `Path.is_dir()` (false also when the path does not exist). -/
def isDirAt (fs : FS) (p : FPath) : Bool :=
  lookupNode fs p == some .dir

/-- Create or replace the node at a path. -/
def setNode (fs : FS) (p : FPath) (n : Node) : FS :=
  fs.filter (fun e => e.1 != p) ++ [(p, n)]

/-- Is `p` equal to `root` or beneath it? -/
def isUnder (root p : FPath) : Bool :=
  root == p.take root.length

/-- Is `p` strictly beneath `root`? -/
def strictUnder (root p : FPath) : Bool :=
  isUnder root p && p != root

/-- `Path.relative_to(base)`: the path relative to `base`, or a
`ValueError` (modelled as `none`) when the path is not beneath `base`. -/
def relativeTo (p base : FPath) : Option FPath :=
  if isUnder base p then some (p.drop base.length) else none

/-- All nonempty prefixes of a path, shortest first. -/
def ancestors (p : FPath) : List FPath :=
  (List.range p.length).map fun i => p.take (i + 1)

/-- One directory-creation step: create the directory unless something
already exists at the path. -/
def mkdirStep (acc : FS) (q : FPath) : FS :=
  if pathExists acc q then acc else setNode acc q .dir

/-- `Path.mkdir(parents=True, exist_ok=True)`: create every missing
ancestor directory and the directory itself. -/
def mkdirParents (fs : FS) (p : FPath) : FS :=
  (ancestors p).foldl mkdirStep fs

/-- `shutil.rmtree(p)`: remove the tree rooted at `p`, the root included. -/
def rmtree (fs : FS) (p : FPath) : FS :=
  fs.filter fun e => !(isUnder p e.1)

/-- `shutil.copyfile(src, dst)`: raises `SameFileError` when source and
destination are the same file (with no symlinks: the same path); otherwise
opens the source (`FileNotFoundError` when missing, `IsADirectoryError` for
a directory), and writes the destination, replacing any previous content
(`IsADirectoryError` when the destination is a directory). -/
def copyfile (fs : FS) (src dst : FPath) : Except PyError FS :=
  if src == dst then .error .sameFileError
  else
    match lookupNode fs src with
    | some (.file c) =>
      if isDirAt fs dst then .error .isADirectoryError
      else .ok (setNode fs dst (.file c))
    | some .dir => .error .isADirectoryError
    | none => .error .fileNotFoundError

/-- The entries strictly beneath a root, in filesystem order
(`Path.glob("**/*")`). -/
def globUnder (fs : FS) (root : FPath) : List (FPath × Node) :=
  fs.filter fun e => strictUnder root e.1

/-- The direct children of a path (`Path.iterdir()`). -/
def childrenOf (fs : FS) (p : FPath) : List (FPath × Node) :=
  fs.filter fun e => isUnder p e.1 && e.1.length == p.length + 1

/-- The loop body of `backup_files` (cli.py lines 128-140): compute the
destination under the backup folder from the path relative to the backup
folder's parent, create the destination's parent folders when missing, then
either create the directory (`mkdir`, which raises `FileExistsError` when
the destination already exists) or copy the file — `shutil.copyfile`
unconditionally, with no check whether a backup entry is already there. -/
def backupStep (backup_path : FPath) (fs : FS) (original_file : FPath) :
    Except PyError FS :=
  match relativeTo original_file backup_path.dropLast with
  | none => Except.error PyError.valueError
  | some rel =>
    let destination_path := backup_path ++ rel
    let fs :=
      if !(pathExists fs destination_path.dropLast) then
        mkdirParents fs destination_path.dropLast
      else fs
    if isDirAt fs original_file then
      if pathExists fs destination_path then Except.error PyError.fileExistsError
      else Except.ok (setNode fs destination_path .dir)
    else copyfile fs original_file destination_path

/-- `backup_files` proper: fold `backupStep` over the file list; an
exception from one step propagates (nothing catches it). -/
def backup_files (file_list : List FPath) (backup_path : FPath) (fs : FS) :
    Except PyError FS :=
  file_list.foldlM (backupStep backup_path) fs

/-- What `restore_files` did to each backup entry. -/
inductive REvent
  | restored (p : FPath)
  | skippedSame (p : FPath)
  | failed (p : FPath)
deriving DecidableEq, Repr

/-- The loop body of `restore_files` (cli.py lines 153-174) for one backup
entry: recreate a directory, or copy the file back over its original
location, catching `SameFileError` (logged as "identical, skipping") and
any other `OSError` (logged as an error), so the walk always continues. -/
def restoreStep (game_path backup_path : FPath) (st : FS × List REvent)
    (item : FPath × Node) : FS × List REvent :=
  let fs := st.1
  let rel := item.1.drop backup_path.length
  let original_path := game_path ++ rel
  if isDirAt fs original_path then
    (mkdirParents fs original_path, st.2)
  else
    let fs := mkdirParents fs original_path.dropLast
    match copyfile fs item.1 original_path with
    | .ok fs2 => (fs2, st.2 ++ [REvent.restored original_path])
    | .error .sameFileError => (fs, st.2 ++ [REvent.skippedSame original_path])
    | .error _ => (fs, st.2 ++ [REvent.failed original_path])

/-- `restore_files` (cli.py lines 143-174): fold `restoreStep` over every
entry beneath the backup folder. -/
def restore_files (game_path backup_path : FPath) (fs : FS) : FS × List REvent :=
  (globUnder fs backup_path).foldl (restoreStep game_path backup_path) (fs, [])

/-- The messages `uninstall_mods` logs. -/
inductive UMsg
  | restoringInfo
  | emptyWarn
  | notFoundWarn
  | deletedBackupInfo
  | deletedModsInfo
deriving DecidableEq, Repr

/-- How `uninstall_mods` ends: `typer.Exit` — its normal, documented
termination (docstring of cli.py lines 91-92) — or a genuine exception. -/
inductive Term
  | exitCli
  | raised (e : PyError)
deriving DecidableEq, Repr

/-- The trailing part of `uninstall_mods` (cli.py lines 114-118): delete the
mods folder when present, then `raise typer.Exit()`. -/
def uninstallTail (modfolder_path : FPath) (fs : FS) (msgs : List UMsg) :
    FS × List UMsg × Term :=
  if pathExists fs modfolder_path then
    (rmtree fs modfolder_path, msgs ++ [UMsg.deletedModsInfo], Term.exitCli)
  else (fs, msgs, Term.exitCli)

/-- `uninstall_mods` (cli.py lines 83-118): when the backup folder exists,
restore from it when it has any entry (warn when empty) and delete it; when
it does not exist, only warn.  Then delete the mods folder when present and
exit via `typer.Exit`.  (`any(backup_path.iterdir())` on an existing
non-directory would raise `NotADirectoryError`.) -/
def uninstall_mods (game_path backup_path modfolder_path : FPath) (fs : FS) :
    FS × List UMsg × Term :=
  if pathExists fs backup_path then
    if isDirAt fs backup_path then
      let step :=
        if (childrenOf fs backup_path).isEmpty then (fs, [UMsg.emptyWarn])
        else ((restore_files game_path backup_path fs).1, [UMsg.restoringInfo])
      uninstallTail modfolder_path (rmtree step.1 backup_path)
        (step.2 ++ [UMsg.deletedBackupInfo])
    else (fs, [], Term.raised PyError.notADirectoryError)
  else uninstallTail modfolder_path fs [UMsg.notFoundWarn]

/-- What `read_modfiles` does besides returning its result. -/
inductive RmEvent
  | echo (paths : List String)
  | readFile (p : FPath)
deriving DecidableEq, Repr

/-- `modfolder_path.glob("**/modfile.txt")`: every regular file named
`modfile.txt` beneath the mod folder, with its content. -/
def globModfiles (fs : FS) (root : FPath) : List (FPath × String) :=
  fs.filterMap fun e =>
    match e with
    | (p, .file c) =>
      if strictUnder root p && (p.getLast? == some "modfile.txt") then some (p, c)
      else none
    | _ => none

/-- `read_modfiles` (cli.py lines 177-196): echo the game's script paths and
`return []` (line 188) — the glob-read-clean-interpret loop below that
return is kept here exactly as in the source, and is just as unreachable. -/
def read_modfiles (fs : FS) (modfolder_path : FPath) (game : GameEnum) :
    List Unit × List RmEvent := Id.run do
  let mut events : List RmEvent := [RmEvent.echo game.script_path]
  -- `return []` at cli.py line 188 is unconditional; the `if true then` is
  -- only Lean do-notation syntax for an early return mid-block.
  if true then return ([], events)
  for modfile in globModfiles fs modfolder_path do
    events := events ++ [RmEvent.readFile modfile.1]
    let substituted_content := clean modfile.2
    let _ := load_mods substituted_content
  return ([], events)

/-- Is a restore event the `SameFileError` skip? -/
def isSkipEvent : REvent → Bool
  | .skippedSame _ => true
  | _ => false

/-- A text without any colon character: neither comment alternative of the
substitution pattern can match anywhere in it. -/
def colonFree (l : List Char) : Bool :=
  l.all fun c => c != ':'

/-- Invariant of cleaned colon-free text: no whitespace character stands at
a line start (`st` tells whether the first position is a line start). -/
def noLeadWS : Bool → List Char → Prop
  | _, [] => True
  | st, c :: rest => (st = true → pyWS c = false) ∧ noLeadWS (c == '\n') rest

/-! ## Helper lemmas about the filesystem model -/

theorem lookupNode_setNode (fs : FS) (p q : FPath) (n : Node) :
    lookupNode (setNode fs p n) q = if q = p then some n else lookupNode fs q := by
  unfold lookupNode setNode
  rw [List.find?_append]
  by_cases h : q = p
  · subst h
    have h1 : (fs.filter fun e => e.1 != q).find? (fun e => e.1 == q) = none := by
      rw [List.find?_eq_none]
      intro e he
      have h2 := List.of_mem_filter he
      simp only [bne_iff_ne, ne_eq] at h2
      simp [h2]
    rw [h1, if_pos rfl]
    simp [List.find?_singleton]
  · have h2 : (fs.filter fun e => e.1 != p).find? (fun e => e.1 == q)
        = fs.find? (fun e => e.1 == q) := by
      rw [List.find?_filter]
      congr 1
      funext e
      by_cases he : e.1 = q
      · simp [he, h]
      · simp [he]
    have h3 : ([(p, n)].find? fun e => e.1 == q) = none := by
      simp [List.find?_singleton, Ne.symm h]
    rw [h2, h3, Option.or_none, if_neg h]

theorem mkdirStep_eq (acc : FS) (q : FPath) :
    mkdirStep acc q = if pathExists acc q then acc else setNode acc q .dir :=
  rfl

theorem lookupNode_mkdirFold_of_isSome (l : List FPath) (fs : FS) (q : FPath)
    (h : (lookupNode fs q).isSome) :
    lookupNode (l.foldl mkdirStep fs) q = lookupNode fs q := by
  induction l generalizing fs with
  | nil => rfl
  | cons r l ih =>
    rw [List.foldl_cons, mkdirStep_eq]
    by_cases hr : pathExists fs r
    · rw [if_pos hr]
      exact ih fs h
    · rw [if_neg hr]
      have hne : q ≠ r := by
        intro e
        subst e
        unfold pathExists at hr
        exact hr h
      have hl : lookupNode (setNode fs r .dir) q = lookupNode fs q := by
        rw [lookupNode_setNode, if_neg hne]
      rw [ih (setNode fs r .dir) (by rw [hl]; exact h), hl]

theorem lookupNode_mkdirFold_of_notMem (l : List FPath) (fs : FS) (q : FPath)
    (h : ∀ r ∈ l, r ≠ q) :
    lookupNode (l.foldl mkdirStep fs) q = lookupNode fs q := by
  induction l generalizing fs with
  | nil => rfl
  | cons r l ih =>
    rw [List.foldl_cons, mkdirStep_eq]
    have hrq : q ≠ r := Ne.symm (h r (List.mem_cons_self r l))
    by_cases hr : pathExists fs r
    · rw [if_pos hr]
      exact ih fs fun x hx => h x (List.mem_cons_of_mem r hx)
    · rw [if_neg hr]
      have hl : lookupNode (setNode fs r .dir) q = lookupNode fs q := by
        rw [lookupNode_setNode, if_neg hrq]
      rw [ih (setNode fs r .dir) fun x hx => h x (List.mem_cons_of_mem r hx), hl]

theorem mem_ancestors_length {r p : FPath} (h : r ∈ ancestors p) :
    r.length ≤ p.length := by
  unfold ancestors at h
  simp only [List.mem_map, List.mem_range] at h
  obtain ⟨i, _, rfl⟩ := h
  rw [List.length_take]
  exact min_le_right _ _

theorem pathExists_rmtree_self (fs : FS) (p : FPath) :
    pathExists (rmtree fs p) p = false := by
  unfold pathExists lookupNode rmtree
  rw [List.find?_filter]
  have h1 : (fun (e : FPath × Node) =>
      decide ((!isUnder p e.1) = true ∧ (e.1 == p) = true)) = fun _ => false := by
    funext e
    by_cases he : e.1 = p
    · have hu : isUnder p e.1 = true := by
        unfold isUnder
        rw [he, List.take_length]
        exact beq_self_eq_true p
      simp [hu]
    · simp [he]
  rw [h1]
  have h2 : fs.find? (fun _ => false) = none :=
    List.find?_eq_none.mpr fun x _ => by simp
  rw [h2]
  rfl

theorem isUnder_append_drop {root p : FPath} (h : isUnder root p = true) :
    root ++ p.drop root.length = p := by
  unfold isUnder at h
  rw [beq_iff_eq] at h
  calc root ++ p.drop root.length
      = p.take root.length ++ p.drop root.length := by rw [← h]
    _ = p := List.take_append_drop _ _

theorem lookupNode_mkdirParents_of_isSome (fs : FS) (p q : FPath)
    (h : (lookupNode fs q).isSome) :
    lookupNode (mkdirParents fs p) q = lookupNode fs q :=
  lookupNode_mkdirFold_of_isSome (ancestors p) fs q h

theorem lookupNode_mkdirParents_of_longer (fs : FS) (p q : FPath)
    (h : p.length < q.length) :
    lookupNode (mkdirParents fs p) q = lookupNode fs q :=
  lookupNode_mkdirFold_of_notMem (ancestors p) fs q fun r hr => by
    have hr2 := mem_ancestors_length hr
    intro e
    subst e
    omega

theorem copyfile_sameFileError {fs : FS} {src dst : FPath}
    (h : copyfile fs src dst = .error .sameFileError) : src = dst := by
  by_cases he : src = dst
  · exact he
  · exfalso
    unfold copyfile at h
    rw [if_neg (by simp [he])] at h
    split at h
    · split at h <;> simp_all
    · simp_all
    · simp_all

/-! ## Claim theorems -/

/-- C1: `read_modfiles` returns the empty list for every mod folder and
game, emitting only the `typer.echo` of the game's script paths: no
`readFile` event ever occurs, because the unconditional `return []` at
cli.py line 188 precedes the glob-read-clean-interpret loop.  The function
takes the filesystem purely and returns no updated filesystem, so no merge
plan is built and no game file is touched. -/
theorem read_modfiles_returns_nothing (fs : FS) (modfolder_path : FPath)
    (game : GameEnum) :
    read_modfiles fs modfolder_path game = ([], [RmEvent.echo game.script_path]) :=
  rfl

/-- C10: the `script_path` registry maps HADES to exactly
`["Scritps/RoomManager.lua"]` — whose first component is the misspelled
`"Scritps"`, not `"Scripts"` — and BASTION to the singleton empty path. -/
theorem script_path_values :
    GameEnum.script_path .HADES = ["Scritps/RoomManager.lua"] ∧
    GameEnum.script_path .BASTION = [""] ∧
    firstPathComponent "Scritps/RoomManager.lua" = "Scritps" ∧
    "Scritps" ≠ "Scripts" :=
  ⟨rfl, rfl, rfl, by decide⟩

/-- C3 (against the code): the Scenario A modfile text is already clean (a
fixpoint of the comment substitution), and `load_mods` on it raises
`IndexError` at the very first line `load 1` — `priority` unpacks to the
empty list and `int(float(priority[0]))` indexes it — so no merge plan of
any shape is produced (no merge-plan construction exists in the code). -/
theorem load_mods_scenarioA_raises :
    clean "load 1\nimport foo.txt\nto Scripts/Bar.lua\nimport baz.txt"
      = "load 1\nimport foo.txt\nto Scripts/Bar.lua\nimport baz.txt" ∧
    load_mods "load 1\nimport foo.txt\nto Scripts/Bar.lua\nimport baz.txt"
      = .error .indexError :=
  ⟨by decide, by decide⟩

/-- C4 (against the code): a directive line with fewer than two
whitespace-separated tokens makes the unpacking
`command, sub, *priority = line.split()` raise a plain `ValueError` — not
any `MalformedDirectiveError`, which the code does not define — and the
uncaught exception aborts the whole loop: with a malformed first line the
following well-formed line is never processed. -/
theorem load_mods_short_line_raises :
    load_mods "import" = .error .valueError ∧
    load_mods "import\nxml a" = .error .valueError :=
  ⟨by decide, by decide⟩

/-- C6 counterexample: for the text `"-: open\nimport foo.txt"`, which ends
inside a multiline comment opened with `-:` and never closed, cleaning does
not produce an empty (all-commented) result as the claim requires. -/
theorem unterminated_comment_cex :
    clean "-: open\nimport foo.txt" ≠ "" := by
  decide

/-- C6 amended: the multiline-comment alternative `-:(?:.|\s)*?:-\s?` only
matches up to an explicit closing `:-`; end-of-text is not an implicit
close, so an unterminated comment removes nothing — the opener and the
following directive line survive cleaning verbatim. -/
theorem unterminated_comment_kept :
    clean "-: open\nimport foo.txt" = "-: open\nimport foo.txt" := by
  decide

/-- C8 counterexample: cleaning is not idempotent.  For
`T = "--::-:a:-"` the first pass removes the inner `-::-` block, and the
deletion makes the leftover `-` and `:a:-` adjacent, forming a fresh
multiline comment `-:a:-` that only the second pass removes:
`clean T = "-:a:-"` but `clean (clean T) = ""`. -/
theorem clean_not_idempotent_cex :
    clean (clean "--::-:a:-") ≠ clean "--::-:a:-" := by
  decide

/-- C2 counterexample: with an existing backup entry
`Game/Backup/Scripts/a.lua = "original"` differing from the current game
file `Game/Scripts/a.lua = "modded"`, a `backup_files` call on that game
file overwrites the existing backup entry with `"modded"`. -/
theorem backup_overwrite_cex :
    lookupNode
        [(["Game"], .dir), (["Game", "Scripts"], .dir),
         (["Game", "Scripts", "a.lua"], .file "modded"),
         (["Game", "Backup"], .dir), (["Game", "Backup", "Scripts"], .dir),
         (["Game", "Backup", "Scripts", "a.lua"], .file "original")]
        ["Game", "Backup", "Scripts", "a.lua"] = some (.file "original") ∧
    (backup_files [["Game", "Scripts", "a.lua"]] ["Game", "Backup"]
          [(["Game"], .dir), (["Game", "Scripts"], .dir),
           (["Game", "Scripts", "a.lua"], .file "modded"),
           (["Game", "Backup"], .dir), (["Game", "Backup", "Scripts"], .dir),
           (["Game", "Backup", "Scripts", "a.lua"], .file "original")]).map
        (fun fs1 => lookupNode fs1 ["Game", "Backup", "Scripts", "a.lua"])
      = .ok (some (.file "modded")) :=
  ⟨rfl, rfl⟩

/-- C7 counterexample: a backup entry byte-identical to the file at its
original game location (`"same"` on both sides) is still copied — the
event trace records a `restored` event for it and no skip — because
`shutil.copyfile` only raises `SameFileError` for the same file, which
distinct backup and game paths never are; content equality is never
examined. -/
theorem restore_identical_copied_cex :
    (restore_files ["G"] ["G", "Backup"]
        [(["G"], .dir), (["G", "Scripts"], .dir),
         (["G", "Scripts", "a.lua"], .file "same"),
         (["G", "Backup"], .dir), (["G", "Backup", "Scripts"], .dir),
         (["G", "Backup", "Scripts", "a.lua"], .file "same")]).2
      = [REvent.restored ["G", "Scripts", "a.lua"]] ∧
    lookupNode
        [(["G"], .dir), (["G", "Scripts"], .dir),
         (["G", "Scripts", "a.lua"], .file "same"),
         (["G", "Backup"], .dir), (["G", "Backup", "Scripts"], .dir),
         (["G", "Backup", "Scripts", "a.lua"], .file "same")]
        ["G", "Backup", "Scripts", "a.lua"]
      = lookupNode
        [(["G"], .dir), (["G", "Scripts"], .dir),
         (["G", "Scripts", "a.lua"], .file "same"),
         (["G", "Backup"], .dir), (["G", "Backup", "Scripts"], .dir),
         (["G", "Backup", "Scripts", "a.lua"], .file "same")]
        ["G", "Scripts", "a.lua"] :=
  ⟨rfl, rfl⟩

/-- C5: when the backup folder does not exist, `uninstall_mods` logs the
"Backup folder not found" warning, deletes the mods folder whenever it is
present, and terminates through its normal `typer.Exit`, raising no
error. -/
theorem uninstall_missing_backup (game_path backup_path modfolder_path : FPath)
    (fs : FS) (h : pathExists fs backup_path = false) :
    UMsg.notFoundWarn ∈ (uninstall_mods game_path backup_path modfolder_path fs).2.1 ∧
    (pathExists fs modfolder_path = true →
      pathExists (uninstall_mods game_path backup_path modfolder_path fs).1
        modfolder_path = false) ∧
    (uninstall_mods game_path backup_path modfolder_path fs).2.2 = Term.exitCli := by
  unfold uninstall_mods
  rw [if_neg (by simp [h])]
  unfold uninstallTail
  by_cases hm : pathExists fs modfolder_path = true
  · rw [if_pos hm]
    exact ⟨by simp, fun _ => pathExists_rmtree_self fs modfolder_path, rfl⟩
  · rw [if_neg hm]
    exact ⟨by simp, fun hc => absurd hc hm, rfl⟩

/-- C5 witness: a filesystem with a mods folder and no backup folder. -/
theorem uninstall_missing_backup_witness :
    UMsg.notFoundWarn ∈
      (uninstall_mods ["G"] ["G", "Backup"] ["G", "Mods"]
        [(["G"], Node.dir), (["G", "Mods"], Node.dir)]).2.1 ∧
    (pathExists [(["G"], Node.dir), (["G", "Mods"], Node.dir)] ["G", "Mods"] = true →
      pathExists
        (uninstall_mods ["G"] ["G", "Backup"] ["G", "Mods"]
          [(["G"], Node.dir), (["G", "Mods"], Node.dir)]).1 ["G", "Mods"] = false) ∧
    (uninstall_mods ["G"] ["G", "Backup"] ["G", "Mods"]
      [(["G"], Node.dir), (["G", "Mods"], Node.dir)]).2.2 = Term.exitCli :=
  uninstall_missing_backup ["G"] ["G", "Backup"] ["G", "Mods"]
    [(["G"], Node.dir), (["G", "Mods"], Node.dir)] (by decide)

/-- C2 amended: `backup_files` copies unconditionally — for a listed regular
file, the destination under the backup folder afterwards holds the file's
current content, whatever entry (if any) was there before; existing backup
entries are overwritten, so a second call re-copies every file. -/
theorem backup_files_overwrites (fs : FS) (backup_path original_file : FPath)
    (c : String) (hbp : backup_path ≠ [])
    (hrel : isUnder backup_path.dropLast original_file = true)
    (hfile : lookupNode fs original_file = some (.file c))
    (hneq : original_file
      ≠ backup_path ++ original_file.drop backup_path.dropLast.length)
    (hdst : isDirAt fs
      (backup_path ++ original_file.drop backup_path.dropLast.length) = false) :
    ∃ fs1,
      backup_files [original_file] backup_path fs = .ok fs1 ∧
      lookupNode fs1
          (backup_path ++ original_file.drop backup_path.dropLast.length)
        = some (.file c) := by
  have hrt : relativeTo original_file backup_path.dropLast
      = some (original_file.drop backup_path.dropLast.length) := by
    unfold relativeTo
    rw [if_pos hrel]
  have hdlen :
      (backup_path ++ original_file.drop backup_path.dropLast.length).dropLast.length
        < (backup_path ++ original_file.drop backup_path.dropLast.length).length := by
    rw [List.length_dropLast, List.length_append]
    have h1 : 0 < backup_path.length := List.length_pos.mpr hbp
    omega
  have key : ∀ fsx : FS, lookupNode fsx original_file = some (.file c) →
      isDirAt fsx (backup_path ++ original_file.drop backup_path.dropLast.length)
        = false →
      (if isDirAt fsx original_file then
        (if pathExists fsx
            (backup_path ++ original_file.drop backup_path.dropLast.length) then
          Except.error PyError.fileExistsError
        else Except.ok (setNode fsx
          (backup_path ++ original_file.drop backup_path.dropLast.length) .dir))
      else copyfile fsx original_file
        (backup_path ++ original_file.drop backup_path.dropLast.length))
      = .ok (setNode fsx
          (backup_path ++ original_file.drop backup_path.dropLast.length)
          (.file c)) := by
    intro fsx h1 h2
    have hnd : isDirAt fsx original_file = false := by
      unfold isDirAt
      rw [h1]
      rfl
    rw [if_neg (by rw [hnd]; exact Bool.false_ne_true)]
    unfold copyfile
    rw [if_neg fun hx => hneq (beq_iff_eq.mp hx), h1]
    simp only [h2, Bool.false_eq_true, if_false]
  have hstep : backupStep backup_path fs original_file
      = .ok (setNode
          (if !(pathExists fs
              (backup_path ++ original_file.drop backup_path.dropLast.length).dropLast)
            then mkdirParents fs
              (backup_path ++ original_file.drop backup_path.dropLast.length).dropLast
            else fs)
          (backup_path ++ original_file.drop backup_path.dropLast.length)
          (.file c)) := by
    unfold backupStep
    simp only [hrt]
    by_cases hpe : pathExists fs
        (backup_path ++ original_file.drop backup_path.dropLast.length).dropLast = true
    · have hfs : (if (!pathExists fs
            (backup_path ++ original_file.drop backup_path.dropLast.length).dropLast)
              = true then
          mkdirParents fs
            (backup_path ++ original_file.drop backup_path.dropLast.length).dropLast
        else fs) = fs := by
        rw [hpe]
        rfl
      rw [hfs]
      exact key fs hfile hdst
    · simp only [Bool.not_eq_true] at hpe
      have hfs : (if (!pathExists fs
            (backup_path ++ original_file.drop backup_path.dropLast.length).dropLast)
              = true then
          mkdirParents fs
            (backup_path ++ original_file.drop backup_path.dropLast.length).dropLast
        else fs) = mkdirParents fs
          (backup_path ++ original_file.drop backup_path.dropLast.length).dropLast := by
        rw [hpe]
        rfl
      rw [hfs]
      refine key _ ?_ ?_
      · rw [lookupNode_mkdirParents_of_isSome _ _ _ (by rw [hfile]; rfl)]
        exact hfile
      · unfold isDirAt at hdst ⊢
        rw [lookupNode_mkdirParents_of_longer _ _ _ hdlen]
        exact hdst
  refine ⟨setNode
      (if !(pathExists fs
          (backup_path ++ original_file.drop backup_path.dropLast.length).dropLast)
        then mkdirParents fs
          (backup_path ++ original_file.drop backup_path.dropLast.length).dropLast
        else fs)
      (backup_path ++ original_file.drop backup_path.dropLast.length)
      (.file c), ?_, ?_⟩
  · unfold backup_files
    rw [List.foldlM_cons, hstep]
    rfl
  · rw [lookupNode_setNode, if_pos rfl]

/-- C2 amended witness: the concrete overwrite scenario. -/
theorem backup_files_overwrites_witness :
    ∃ fs1,
      backup_files [["Game", "Scripts", "a.lua"]] ["Game", "Backup"]
          [(["Game"], .dir), (["Game", "Scripts"], .dir),
           (["Game", "Scripts", "a.lua"], .file "modded"),
           (["Game", "Backup"], .dir), (["Game", "Backup", "Scripts"], .dir),
           (["Game", "Backup", "Scripts", "a.lua"], .file "original")] = .ok fs1 ∧
      lookupNode fs1
          (["Game", "Backup"] ++
            (["Game", "Scripts", "a.lua"].drop ["Game", "Backup"].dropLast.length))
        = some (.file "modded") :=
  backup_files_overwrites
    [(["Game"], .dir), (["Game", "Scripts"], .dir),
     (["Game", "Scripts", "a.lua"], .file "modded"),
     (["Game", "Backup"], .dir), (["Game", "Backup", "Scripts"], .dir),
     (["Game", "Backup", "Scripts", "a.lua"], .file "original")]
    ["Game", "Backup"] ["Game", "Scripts", "a.lua"] "modded"
    (by decide) (by decide) (by decide) (by decide) (by decide)

/-- C7 amended: during restore the "identical, skipping" branch fires only
on `shutil.SameFileError`, i.e. when a backup entry and its destination are
the very same file; with the backup root a proper subfolder of the game
root the two paths always differ, so no file is ever skipped — content
equality is never consulted. -/
theorem restore_never_skips (fs : FS) (game_path : FPath) (b : String) :
    ((restore_files game_path (game_path ++ [b]) fs).2.filter isSkipEvent) = [] := by
  unfold restore_files
  have H : ∀ (L : List (FPath × Node)) (st : FS × List REvent),
      (∀ item ∈ L, strictUnder (game_path ++ [b]) item.1 = true) →
      st.2.filter isSkipEvent = [] →
      ((L.foldl (restoreStep game_path (game_path ++ [b])) st).2.filter isSkipEvent)
        = [] := by
    intro L
    induction L with
    | nil => exact fun st _ h2 => h2
    | cons item L ih =>
      intro st hL h2
      rw [List.foldl_cons]
      refine ih _ (fun x hx => hL x (List.mem_cons_of_mem _ hx)) ?_
      have hstrict := hL item (List.mem_cons_self item L)
      simp only [restoreStep]
      split
      · exact h2
      · split
        · rename_i fs2 heq
          simp [List.filter_append, h2, isSkipEvent]
        · rename_i heq
          exfalso
          have hsame := copyfile_sameFileError heq
          have hUnder : isUnder (game_path ++ [b]) item.1 = true := by
            unfold strictUnder at hstrict
            exact (Bool.and_eq_true _ _ |>.mp hstrict).1
          have heq2 := isUnder_append_drop hUnder
          have heq3 : (game_path ++ [b]) ++ item.1.drop (game_path ++ [b]).length
              = game_path ++ item.1.drop (game_path ++ [b]).length :=
            heq2.trans hsame
          have hlen := congrArg List.length heq3
          simp [List.length_append] at hlen
        · rename_i heq
          simp [List.filter_append, h2, isSkipEvent]
  exact H _ _ (fun item hx => (List.mem_filter.mp hx).2) rfl

theorem splitlinesAux_no_break (l : List Char)
    (hnl : ∀ c ∈ l, c ≠ '\n' ∧ c ≠ '\r') :
    ∀ acc : List Char, acc ≠ [] ∨ l ≠ [] →
      splitlinesAux l acc = [⟨acc.reverse ++ l⟩] := by
  induction l with
  | nil =>
    intro acc hne
    cases acc with
    | nil =>
      rcases hne with h | h
      · exact absurd rfl h
      · exact absurd rfl h
    | cons a as => simp [splitlinesAux]
  | cons c rest ih =>
    intro acc _
    have hc := hnl c (List.mem_cons_self c rest)
    have harm : splitlinesAux (c :: rest) acc = splitlinesAux rest (c :: acc) := by
      rw [splitlinesAux.eq_def]
      split <;> simp_all
    rw [harm,
      ih (fun x hx => hnl x (List.mem_cons_of_mem _ hx)) (c :: acc)
        (Or.inl (List.cons_ne_nil c acc))]
    simp

theorem pySplitlines_single (line : String)
    (hnl : ∀ c ∈ line.data, c ≠ '\n' ∧ c ≠ '\r') (hne : line ≠ "") :
    pySplitlines line = [line] := by
  unfold pySplitlines
  have hd : line.data ≠ [] := by
    cases line with
    | mk d => exact fun h => hne (congrArg String.mk h)
  rw [splitlinesAux_no_break line.data hnl [] (Or.inr hd)]
  rfl

/-- C9: for every directive line of exactly two whitespace-separated tokens
whose first token lowercases to `load` (such as `load 1`), `load_mods`
raises an unhandled `IndexError`: the `load` arm evaluates
`int(float(priority[0]))` while `priority`, the list of tokens after the
first two, is empty. -/
theorem load_mods_two_token_load_raises (line cmd arg : String)
    (hnl : ∀ c ∈ line.data, c ≠ '\n' ∧ c ≠ '\r')
    (hws : pyWords line = [cmd, arg])
    (hcmd : pyLower cmd = "load") :
    load_mods line = .error .indexError := by
  have hne : line ≠ "" := by
    intro h
    rw [h] at hws
    exact List.noConfusion (show ([] : List String) = cmd :: [arg] from hws)
  have hp : processLine line = .error .indexError := by
    unfold processLine
    simp only [hws, hcmd]
  unfold load_mods
  rw [pySplitlines_single line hnl hne]
  simp only [List.foldlM_cons, List.foldlM_nil, hp]
  rfl

/-- C9 witness: the line `load 1` itself. -/
theorem load_mods_two_token_load_raises_witness :
    load_mods "load 1" = .error .indexError :=
  load_mods_two_token_load_raises "load 1" "load" "1" (by decide) (by decide)
    (by decide)

theorem matchA_colonFree (s : List Char) (h : colonFree s = true) :
    matchA s = none := by
  rw [matchA.eq_def]
  split <;> simp_all [colonFree]

theorem matchB_colonFree (s : List Char) (h : colonFree s = true) :
    matchB s = none := by
  rw [matchB.eq_def]
  split <;> simp_all [colonFree]

theorem tryMatch_colonFree (s : List Char) (st : Bool) (h : colonFree s = true) :
    tryMatch s st = matchC s st := by
  unfold tryMatch
  rw [matchA_colonFree s h, matchB_colonFree s h]
  rfl

theorem colonFree_drop (s : List Char) (n : Nat) (h : colonFree s = true) :
    colonFree (s.drop n) = true := by
  unfold colonFree at h ⊢
  rw [List.all_eq_true] at h ⊢
  exact fun c hc => h c (List.mem_of_mem_drop hc)

theorem colonFree_of_cons {a : Char} {rest : List Char}
    (h : colonFree (a :: rest) = true) : colonFree rest = true := by
  unfold colonFree at h ⊢
  rw [List.all_cons, Bool.and_eq_true] at h
  exact h.2

theorem head_drop_wsRun (s : List Char) :
    ∀ c, (s.drop (wsRun s)).head? = some c → pyWS c = false := by
  induction s with
  | nil => intro c h; exact absurd h (by simp)
  | cons a rest ih =>
    intro c h
    by_cases ha : pyWS a = true
    · rw [show wsRun (a :: rest) = 1 + wsRun rest from by simp [wsRun, ha],
        Nat.add_comm, List.drop_succ_cons] at h
      exact ih c h
    · rw [show wsRun (a :: rest) = 0 from by simp [wsRun, ha], List.drop_zero] at h
      have hca : c = a := by
        have := by simpa using h
        exact this.symm
      rw [hca]
      exact Bool.not_eq_true _ |>.mp ha

theorem cleanGo_subset (fuel : Nat) (s : List Char) (st : Bool) :
    ∀ c ∈ cleanGo fuel s st, c ∈ s := by
  induction fuel generalizing s st with
  | zero => intro c hc; exact absurd hc (List.not_mem_nil c)
  | succ fuel ih =>
    cases s with
    | nil => intro c hc; exact absurd hc (List.not_mem_nil c)
    | cons a rest =>
      intro c hc
      simp only [cleanGo] at hc
      cases htm : tryMatch (a :: rest) st with
      | some n =>
        rw [htm] at hc
        exact List.mem_of_mem_drop (ih _ _ c hc)
      | none =>
        rw [htm] at hc
        rcases List.mem_cons.mp hc with h | h
        · rw [h]; exact List.mem_cons_self a rest
        · exact List.mem_cons_of_mem a (ih _ _ c h)

theorem cleanGo_head_nonWS (fuel : Nat) (s : List Char) (st : Bool)
    (hcf : colonFree s = true)
    (hh : ∀ c, s.head? = some c → pyWS c = false) :
    ∀ c, (cleanGo fuel s st).head? = some c → pyWS c = false := by
  cases fuel with
  | zero => intro c h; exact absurd h (by simp [cleanGo])
  | succ fuel =>
    cases s with
    | nil => intro c h; exact absurd h (by simp [cleanGo])
    | cons a rest =>
      intro c h
      have ha := hh a rfl
      have hC : matchC (a :: rest) st = none := by
        unfold matchC
        cases st with
        | false => rfl
        | true => simp [ha]
      simp only [cleanGo, tryMatch_colonFree _ _ hcf, hC] at h
      have hca : c = a := by
        have := by simpa using h
        exact this.symm
      rw [hca]
      exact ha

theorem noLeadWS_true_of (l : List Char) (b : Bool) (h : noLeadWS b l)
    (hh : ∀ c, l.head? = some c → pyWS c = false) : noLeadWS true l := by
  cases l with
  | nil => trivial
  | cons c t => exact ⟨fun _ => hh c rfl, h.2⟩

theorem cleanGo_noLeadWS (fuel : Nat) (s : List Char) (st : Bool)
    (h : colonFree s = true) : noLeadWS st (cleanGo fuel s st) := by
  induction fuel generalizing s st with
  | zero => exact trivial
  | succ fuel ih =>
    cases s with
    | nil => exact trivial
    | cons a rest =>
      have hcr := colonFree_of_cons h
      simp only [cleanGo, tryMatch_colonFree _ _ h]
      by_cases hst : st = true
      · subst hst
        by_cases ha : pyWS a = true
        · have hMC : matchC (a :: rest) true = some (wsRun (a :: rest)) := by
            simp [matchC, ha]
          rw [hMC]
          refine noLeadWS_true_of _ _ (ih _ _ (colonFree_drop _ _ h)) ?_
          exact cleanGo_head_nonWS fuel _ _ (colonFree_drop _ _ h)
            (head_drop_wsRun (a :: rest))
        · have hMC : matchC (a :: rest) true = none := by
            simp [matchC, ha]
          rw [hMC]
          exact ⟨fun _ => Bool.not_eq_true _ |>.mp ha, ih rest (a == '\n') hcr⟩
      · have hst' : st = false := Bool.not_eq_true st |>.mp hst
        subst hst'
        have hMC : matchC (a :: rest) false = none := rfl
        rw [hMC]
        exact ⟨fun hx => absurd hx (by simp), ih rest (a == '\n') hcr⟩

theorem cleanGo_fixpoint (l : List Char) :
    ∀ (st : Bool) (fuel : Nat), colonFree l = true → noLeadWS st l →
      l.length ≤ fuel → cleanGo fuel l st = l := by
  induction l with
  | nil => intro st fuel _ _ _; cases fuel <;> rfl
  | cons a rest ih =>
    intro st fuel hcf hnl hlen
    cases fuel with
    | zero => exact absurd hlen (by simp)
    | succ fuel =>
      simp only [cleanGo, tryMatch_colonFree _ _ hcf]
      have hC : matchC (a :: rest) st = none := by
        cases st with
        | false => rfl
        | true => simp [matchC, hnl.1 rfl]
      rw [hC]
      have := ih (a == '\n') fuel (colonFree_of_cons hcf) hnl.2
        (by simpa using Nat.succ_le_succ_iff.mp hlen)
      rw [this]

/-- C8 amended: cleaning is idempotent on every text containing no colon
character (neither comment alternative can then match, and a single pass
already removes every line-start whitespace run); in general it is not
idempotent, because a deletion can juxtapose characters that form a fresh
comment marker — see the counterexample. -/
theorem clean_idempotent_colonFree (s : String)
    (h : colonFree s.data = true) :
    clean (clean s) = clean s := by
  have hcf : colonFree (cleanGo s.data.length s.data true) = true := by
    unfold colonFree at h ⊢
    rw [List.all_eq_true] at h ⊢
    exact fun c hc => h c (cleanGo_subset _ _ _ c hc)
  have hnl := cleanGo_noLeadWS s.data.length s.data true h
  have hfix := cleanGo_fixpoint (cleanGo s.data.length s.data true) true
    (cleanGo s.data.length s.data true).length hcf hnl (le_refl _)
  exact congrArg String.mk hfix

/-- C8 amended witness: a colon-free text that cleaning changes
(leading whitespace is removed) is cleaned idempotently. -/
theorem clean_idempotent_colonFree_witness :
    clean (clean "  a\nb -- c") = clean "  a\nb -- c" :=
  clean_idempotent_colonFree "  a\nb -- c" (by decide)

end Sggmm
